import Mathlib

/-!
Verification of `src/notebooks/util/profile.py` from `swiftai-dev/data-notebooks`.

The module has two functions:

* `format_size(size_in_bytes)` — converts a byte count to a human-readable
  string by looping over the units `["B", "KB", "MB", "GB"]`, returning
  `f"{size:.2f} {unit}"` as soon as the running magnitude is below 1024 and
  dividing by 1024 otherwise, with a fall-through `return f"{size:.2f} GB"`
  after the loop.
* `measure_read_time(func)` — a decorator whose inner `wrapper` forces a
  garbage collection, samples resident memory and wall-clock time, invokes
  `func` with the forwarded arguments, samples time and memory again, prints
  two report lines, and returns `func`'s result.

Python floats are dyadic rationals and dividing by 1024 is exact on them, so
byte counts and clock readings are embedded as `ℚ`; resident-memory samples
(`psutil` rss values) are embedded as `ℤ`.  Python's `:.2f` / `:.3f`
formatting is embedded by `formatFixed`: on dyadic inputs a tie at the last
kept digit is impossible (it would need a denominator divisible by 5), so
round-half-up coincides with Python's round-half-even on every representable
input.

The effectful `wrapper` is embedded as a pure function from the argument, the
host's sample streams (`MemClock`) and the current sample position (`PState`)
to the ordered list of observable events (gc pass, samples, the call itself,
printed lines), the next sample position and the `Except` outcome.  The
wrapped callable is embedded as `α → Except ε β`, a raised exception being the
`Except.error` case.
-/

namespace Profile

/-- Left-pad a digit string with `'0'` to width `k`, as Python's fixed-point
formatting does for the fractional part. -/
def padZeros (k : ℕ) (s : String) : String :=
  String.mk (List.replicate (k - s.length) '0') ++ s

/-- Embedding of Python's `f"{q:.precf}"`: round `|q| * 10^prec` half-up to an
integer, print integer and fractional digits, and put a minus sign in front of
a negative input (Python signs the rounded magnitude, e.g. `"-0.00"`). -/
def formatFixed (prec : ℕ) (q : ℚ) : String :=
  let scaled : ℚ := |q| * (10 : ℚ) ^ prec + 1 / 2
  let n : ℕ := scaled.num.toNat / scaled.den
  let p : ℕ := 10 ^ prec
  (if q < 0 then "-" else "") ++ toString (n / p) ++ "." ++ padZeros prec (toString (n % p))

/-- The `for unit in ["B", "KB", "MB", "GB"]` loop of `format_size`
(profile.py lines 23-26): return `f"{size_in_bytes:.2f} {unit}"` once the
magnitude is below 1024, otherwise divide by 1024 and move to the next unit;
the empty-list case is the fall-through `return f"{size_in_bytes:.2f} GB"` on
line 27. -/
def formatLoop : ℚ → List String → String
  | size, [] => formatFixed 2 size ++ " GB"
  | size, unit :: units =>
      if size < 1024 then formatFixed 2 size ++ " " ++ unit
      else formatLoop (size / 1024) units

/-- `format_size(size_in_bytes)` from profile.py lines 14-27. -/
def format_size (size_in_bytes : ℚ) : String :=
  formatLoop size_in_bytes ["B", "KB", "MB", "GB"]

theorem string_append_assoc (a b c : String) : a ++ b ++ c = a ++ (b ++ c) := by
  cases a with | mk da =>
  cases b with | mk db =>
  cases c with | mk dc =>
  show String.mk (da ++ db ++ dc) = String.mk (da ++ (db ++ dc))
  rw [List.append_assoc]

attribute [local semireducible] Rat.mul Rat.add Rat.inv Rat.sub

/-- C4: for `0 ≤ size < 1024`, `format_size` renders the value itself to two
decimal places with unit `"B"`; in particular `format_size 0 = "0.00 B"`. -/
theorem format_size_b (size : ℚ) (h0 : 0 ≤ size) (h1 : size < 1024) :
    format_size size = formatFixed 2 size ++ " B" ∧ format_size 0 = "0.00 B" := by
  refine ⟨?_, by decide⟩
  unfold format_size
  simp only [formatLoop]
  rw [if_pos h1, string_append_assoc]
  rfl

theorem format_size_b_witness :
    format_size 512 = formatFixed 2 512 ++ " B" ∧ format_size 0 = "0.00 B" :=
  format_size_b 512 (by norm_num) (by norm_num)

/-- C5: for `1024 ≤ size < 1024 ^ 2`, `format_size` renders `size / 1024` to
two decimal places with unit `"KB"`; in particular
`format_size 1536 = "1.50 KB"`. -/
theorem format_size_kb (size : ℚ) (h0 : 1024 ≤ size) (h1 : size < 1024 ^ 2) :
    format_size size = formatFixed 2 (size / 1024) ++ " KB" ∧
      format_size 1536 = "1.50 KB" := by
  refine ⟨?_, by decide⟩
  have hq : size / 1024 < 1024 := by
    rw [div_lt_iff₀ (by norm_num : (0 : ℚ) < 1024)]
    calc size < 1024 ^ 2 := h1
      _ = 1024 * 1024 := by norm_num
  unfold format_size
  simp only [formatLoop]
  rw [if_neg (not_lt.mpr h0), if_pos hq, string_append_assoc]
  rfl

theorem format_size_kb_witness :
    format_size 1536 = formatFixed 2 (1536 / 1024) ++ " KB" ∧
      format_size 1536 = "1.50 KB" :=
  format_size_kb 1536 (by norm_num) (by norm_num)

/-- C6: for `1024 ^ 2 ≤ size < 1024 ^ 3`, `format_size` renders
`size / 1024 ^ 2` to two decimal places with unit `"MB"`; in particular
`format_size 1048576 = "1.00 MB"`. -/
theorem format_size_mb (size : ℚ) (h0 : 1024 ^ 2 ≤ size) (h1 : size < 1024 ^ 3) :
    format_size size = formatFixed 2 (size / 1024 ^ 2) ++ " MB" ∧
      format_size 1048576 = "1.00 MB" := by
  refine ⟨?_, by decide⟩
  have ha : ¬ size < 1024 := not_lt.mpr (le_trans (by norm_num) h0)
  have hb : ¬ size / 1024 < 1024 := by
    rw [not_lt, le_div_iff₀ (by norm_num : (0 : ℚ) < 1024)]
    calc (1024 : ℚ) * 1024 = 1024 ^ 2 := by norm_num
      _ ≤ size := h0
  have hc : size / 1024 / 1024 < 1024 := by
    rw [div_lt_iff₀ (by norm_num : (0 : ℚ) < 1024),
        div_lt_iff₀ (by norm_num : (0 : ℚ) < 1024)]
    calc size < 1024 ^ 3 := h1
      _ = 1024 * 1024 * 1024 := by norm_num
  unfold format_size
  simp only [formatLoop]
  rw [if_neg ha, if_neg hb, if_pos hc, string_append_assoc,
      show size / 1024 / 1024 = size / 1024 ^ 2 by ring]
  rfl

theorem format_size_mb_witness :
    format_size 1048576 = formatFixed 2 (1048576 / 1024 ^ 2) ++ " MB" ∧
      format_size 1048576 = "1.00 MB" :=
  format_size_mb 1048576 (by norm_num) (by norm_num)

/-- C8: a negative input is not rejected: the loop's first test `size < 1024`
is already true, so the value is rendered directly with unit `"B"` and no
division happens; in particular `format_size (-5) = "-5.00 B"`. -/
theorem format_size_negative (size : ℚ) (h : size < 0) :
    format_size size = formatFixed 2 size ++ " B" ∧ format_size (-5) = "-5.00 B" := by
  refine ⟨?_, by decide⟩
  unfold format_size
  simp only [formatLoop]
  rw [if_pos (h.trans (by norm_num)), string_append_assoc]
  rfl

theorem format_size_negative_witness :
    format_size (-5) = formatFixed 2 (-5) ++ " B" ∧ format_size (-5) = "-5.00 B" :=
  format_size_negative (-5) (by norm_num)

/-- One observable effect of the wrapper, in the order it occurs: the forced
`gc.collect()` pass, a `process.memory_info().rss` sample, a `time.time()`
sample, the invocation of the wrapped callable with its forwarded argument,
or a `print(...)` of one line. -/
inductive Event (α : Type) where
  | gcCollect : Event α
  | memSample (v : ℤ) : Event α
  | clockSample (t : ℚ) : Event α
  | call (a : α) : Event α
  | printLine (s : String) : Event α

/-- The host collaborators of the wrapper: the stream of resident-memory
readings and the stream of wall-clock readings, indexed by how many samples
have been taken so far. -/
structure MemClock where
  rss : ℕ → ℤ
  clock : ℕ → ℚ

/-- The sampling position of the process: how many memory and clock samples
have been consumed. Threading it through sequential calls models the host
state advancing between invocations. -/
structure PState where
  memIdx : ℕ
  clkIdx : ℕ

/-- The inner `wrapper(*args, **kwargs)` of `measure_read_time` (profile.py
lines 40-60): collect garbage, sample `start_mem` then `start_time`, invoke
`func` with the forwarded argument, and — only if it returns — sample
`end_time` then `end_mem`, print the two report lines and return the result.
A raised exception (`Except.error`) escapes before the end samples, so the
trace stops at the call event.  The value is the ordered event trace, the
advanced sampling position, and the outcome. -/
def wrapper {α ε β : Type} (mc : MemClock) (func : α → Except ε β) (a : α)
    (s : PState) : List (Event α) × PState × Except ε β :=
  let start_mem := mc.rss s.memIdx
  let start_time := mc.clock s.clkIdx
  match func a with
  | Except.error e =>
      ([Event.gcCollect, Event.memSample start_mem, Event.clockSample start_time,
        Event.call a],
       ⟨s.memIdx + 1, s.clkIdx + 1⟩, Except.error e)
  | Except.ok v =>
      let end_time := mc.clock (s.clkIdx + 1)
      let end_mem := mc.rss (s.memIdx + 1)
      ([Event.gcCollect, Event.memSample start_mem, Event.clockSample start_time,
        Event.call a, Event.clockSample end_time, Event.memSample end_mem,
        Event.printLine ("Time taken: " ++ formatFixed 3 (end_time - start_time)
          ++ " seconds"),
        Event.printLine ("Memory usage: "
          ++ format_size ((end_mem - start_mem : ℤ) : ℚ))],
       ⟨s.memIdx + 2, s.clkIdx + 2⟩, Except.ok v)

/-- `measure_read_time(func)` from profile.py lines 29-62: the decorator
returns the wrapper closed over `func`. -/
def measure_read_time {α ε β : Type} (mc : MemClock) (func : α → Except ε β) :
    α → PState → List (Event α) × PState × Except ε β :=
  wrapper mc func

/-- The lines printed during a trace, in order. -/
def printedLines {α : Type} (tr : List (Event α)) : List String :=
  tr.filterMap fun e =>
    match e with
    | Event.printLine s => some s
    | _ => none

/-- Whether an event is the invocation of the wrapped callable. -/
def isCall {α : Type} : Event α → Bool
  | Event.call _ => true
  | _ => false

/-- The two report lines of one successful invocation, as a function of only
the four samples taken within that invocation (start at position `s`). -/
def reportLines (mc : MemClock) (s : PState) : List String :=
  ["Time taken: " ++ formatFixed 3 (mc.clock (s.clkIdx + 1) - mc.clock s.clkIdx)
     ++ " seconds",
   "Memory usage: " ++ format_size ((mc.rss (s.memIdx + 1) - mc.rss s.memIdx : ℤ) : ℚ)]

/-- Concrete host streams for the closed witness instances: position `i`
reads `i`. -/
def mcW : MemClock := ⟨fun i => (i : ℤ), fun i => (i : ℚ)⟩

/-- A concrete succeeding callable for the closed witness instances. -/
def okF : ℕ → Except Unit ℕ := fun n => Except.ok (n + 1)

/-- A concrete failing callable for the closed witness instances. -/
def errF : ℕ → Except String ℕ := fun _ => Except.error "boom"

/-- C2: if the wrapped callable returns `v` on argument `a`, the callable
produced by `measure_read_time` returns exactly `v` on `a`, and its trace
records the invocation of the callable with exactly that argument. -/
theorem wrapper_preserves_result {α ε β : Type} (mc : MemClock)
    (func : α → Except ε β) (a : α) (s : PState) (v : β)
    (h : func a = Except.ok v) :
    (measure_read_time mc func a s).2.2 = Except.ok v ∧
      Event.call a ∈ (measure_read_time mc func a s).1 := by
  simp [measure_read_time, wrapper, h]

theorem wrapper_preserves_result_witness :
    (measure_read_time mcW okF 3 ⟨0, 0⟩).2.2 = Except.ok 4 ∧
      Event.call 3 ∈ (measure_read_time mcW okF 3 ⟨0, 0⟩).1 :=
  wrapper_preserves_result mcW okF 3 ⟨0, 0⟩ 4 rfl

/-- C3: if the wrapped callable raises `e` on argument `a`, the wrapped call
propagates the same `e`, prints nothing, and its whole trace is the gc pass,
the two start samples and the invocation — so nothing is printed before the
invocation and no report follows the failure. -/
theorem wrapper_propagates_error {α ε β : Type} (mc : MemClock)
    (func : α → Except ε β) (a : α) (s : PState) (e : ε)
    (h : func a = Except.error e) :
    (measure_read_time mc func a s).2.2 = Except.error e ∧
      printedLines (measure_read_time mc func a s).1 = [] ∧
      (measure_read_time mc func a s).1 =
        [Event.gcCollect, Event.memSample (mc.rss s.memIdx),
         Event.clockSample (mc.clock s.clkIdx), Event.call a] := by
  simp [measure_read_time, wrapper, h, printedLines]

theorem wrapper_propagates_error_witness :
    (measure_read_time mcW errF 3 ⟨0, 0⟩).2.2 = Except.error "boom" ∧
      printedLines (measure_read_time mcW errF 3 ⟨0, 0⟩).1 = [] ∧
      (measure_read_time mcW errF 3 ⟨0, 0⟩).1 =
        [Event.gcCollect, Event.memSample (mcW.rss 0),
         Event.clockSample (mcW.clock 0), Event.call 3] :=
  wrapper_propagates_error mcW errF 3 ⟨0, 0⟩ "boom" rfl

/-- C7: on a successful invocation exactly two lines are printed, in order:
the elapsed time (end minus start clock sample) to three decimal places, then
`format_size` of the memory delta (end minus start rss sample). -/
theorem wrapper_report_two_lines {α ε β : Type} (mc : MemClock)
    (func : α → Except ε β) (a : α) (s : PState) (v : β)
    (h : func a = Except.ok v) :
    printedLines (measure_read_time mc func a s).1 =
      ["Time taken: "
         ++ formatFixed 3 (mc.clock (s.clkIdx + 1) - mc.clock s.clkIdx)
         ++ " seconds",
       "Memory usage: "
         ++ format_size ((mc.rss (s.memIdx + 1) - mc.rss s.memIdx : ℤ) : ℚ)] := by
  simp [measure_read_time, wrapper, h, printedLines]

theorem wrapper_report_two_lines_witness :
    printedLines (measure_read_time mcW okF 3 ⟨0, 0⟩).1 =
      ["Time taken: " ++ formatFixed 3 (mcW.clock 1 - mcW.clock 0) ++ " seconds",
       "Memory usage: " ++ format_size ((mcW.rss 1 - mcW.rss 0 : ℤ) : ℚ)] :=
  wrapper_report_two_lines mcW okF 3 ⟨0, 0⟩ 4 rfl

/-- C9: two sequential successful invocations of the same wrapped callable
produce two reports, each equal to `reportLines` of the sampling position at
its own start — a function of only the samples taken within that invocation —
and each returns its own callable's result. -/
theorem wrapper_sequential_independent {α ε β : Type} (mc : MemClock)
    (func : α → Except ε β) (a1 a2 : α) (s : PState) (v1 v2 : β)
    (h1 : func a1 = Except.ok v1) (h2 : func a2 = Except.ok v2) :
    printedLines (measure_read_time mc func a1 s).1 = reportLines mc s ∧
      printedLines
          (measure_read_time mc func a2 (measure_read_time mc func a1 s).2.1).1 =
        reportLines mc (measure_read_time mc func a1 s).2.1 ∧
      (measure_read_time mc func a1 s).2.2 = Except.ok v1 ∧
      (measure_read_time mc func a2 (measure_read_time mc func a1 s).2.1).2.2 =
        Except.ok v2 := by
  simp [measure_read_time, wrapper, h1, h2, printedLines, reportLines]

theorem wrapper_sequential_independent_witness :
    printedLines (measure_read_time mcW okF 3 ⟨0, 0⟩).1 = reportLines mcW ⟨0, 0⟩ ∧
      printedLines
          (measure_read_time mcW okF 5 (measure_read_time mcW okF 3 ⟨0, 0⟩).2.1).1 =
        reportLines mcW (measure_read_time mcW okF 3 ⟨0, 0⟩).2.1 ∧
      (measure_read_time mcW okF 3 ⟨0, 0⟩).2.2 = Except.ok 4 ∧
      (measure_read_time mcW okF 5 (measure_read_time mcW okF 3 ⟨0, 0⟩).2.1).2.2 =
        Except.ok 6 :=
  wrapper_sequential_independent mcW okF 3 5 ⟨0, 0⟩ 4 6 rfl rfl

/-- C10: every invocation of the wrapped callable calls the underlying
callable exactly once; the first four trace events are the gc pass, the start
memory sample, the start clock sample and then the call, and on success the
events after the call are the end clock sample, the end memory sample and the
two report lines. -/
theorem wrapper_calls_func_once {α ε β : Type} (mc : MemClock)
    (func : α → Except ε β) (a : α) (s : PState) :
    ((measure_read_time mc func a s).1.countP isCall = 1) ∧
      (measure_read_time mc func a s).1.take 4 =
        [Event.gcCollect, Event.memSample (mc.rss s.memIdx),
         Event.clockSample (mc.clock s.clkIdx), Event.call a] ∧
      (∀ v : β, func a = Except.ok v →
        (measure_read_time mc func a s).1.drop 4 =
          [Event.clockSample (mc.clock (s.clkIdx + 1)),
           Event.memSample (mc.rss (s.memIdx + 1)),
           Event.printLine ("Time taken: "
             ++ formatFixed 3 (mc.clock (s.clkIdx + 1) - mc.clock s.clkIdx)
             ++ " seconds"),
           Event.printLine ("Memory usage: "
             ++ format_size ((mc.rss (s.memIdx + 1) - mc.rss s.memIdx : ℤ) : ℚ))]) := by
  cases hfa : func a with
  | error e =>
      refine ⟨?_, ?_, ?_⟩ <;> simp [measure_read_time, wrapper, hfa, isCall]
  | ok v =>
      refine ⟨?_, ?_, ?_⟩ <;> simp [measure_read_time, wrapper, hfa, isCall]

theorem wrapper_calls_func_once_witness :
    ((measure_read_time mcW okF 3 ⟨0, 0⟩).1.countP isCall = 1) ∧
      (measure_read_time mcW okF 3 ⟨0, 0⟩).1.take 4 =
        [Event.gcCollect, Event.memSample (mcW.rss 0),
         Event.clockSample (mcW.clock 0), Event.call 3] ∧
      (measure_read_time mcW okF 3 ⟨0, 0⟩).1.drop 4 =
        [Event.clockSample (mcW.clock 1), Event.memSample (mcW.rss 1),
         Event.printLine ("Time taken: "
           ++ formatFixed 3 (mcW.clock 1 - mcW.clock 0) ++ " seconds"),
         Event.printLine ("Memory usage: "
           ++ format_size ((mcW.rss 1 - mcW.rss 0 : ℤ) : ℚ))] :=
  ⟨(wrapper_calls_func_once mcW okF 3 ⟨0, 0⟩).1,
   (wrapper_calls_func_once mcW okF 3 ⟨0, 0⟩).2.1,
   (wrapper_calls_func_once mcW okF 3 ⟨0, 0⟩).2.2 4 rfl⟩

/-- C1, evaluation at the failing input: at `size_in_bytes = 1024 ^ 4` the
loop's GB step is still `≥ 1024`, so the code divides a fourth time and the
fall-through returns `"1.00 GB"`, while dividing by `1024 ^ 3` only (the
claimed terminal-GB behaviour) would give `"1024.00 GB"`. -/
theorem format_size_terabyte_eval :
    format_size ((1024 : ℚ) ^ 4) = "1.00 GB" ∧
      formatFixed 2 ((1024 : ℚ) ^ 4 / 1024 ^ 3) ++ " GB" = "1024.00 GB" ∧
      format_size ((1024 : ℚ) ^ 4) ≠
        formatFixed 2 ((1024 : ℚ) ^ 4 / 1024 ^ 3) ++ " GB" := by
  refine ⟨by decide, by decide, by decide⟩

end Profile
